import Mathlib

/-!
Shallow embedding of the embedded-c-scheduler repository
(src/sched/sched.c, src/sched/sched.h) in Lean 4.

Machine integers (`uint32_t`) are modelled as `Nat` with explicit
`% 2 ^ 32` where the C code can overflow; signed values (`int32_t`)
as `Int`.  Heap allocation success is modelled by explicit boolean
parameters (`alloc_ok`, `strdup_ok`); NULL pointers by `Option`.
Task callbacks are opaque in C (function pointers executed for their
side effects), so an execution is recorded by the index of the task
in the context's task list; the values returned by the caller's time
source during one `sched_run` call are modelled by a stream
`reads : Nat → Nat` (index 0 is the `now` read at the top of
`sched_run`, subsequent indices are the start/stop reads taken
around each executed task callback, in order).
-/

namespace Sched

/-- The wrap domain of the time arithmetic provider, bound at
`tm_initialize(max_time)`: times live in `[0, max_time]`. -/
structure TmMath where
  max_time : Nat
  deriving Repr, DecidableEq

/-- Modelled from the spec: the Time Arithmetic Provider's
`Diff(a, b)` (the timermath module is an external collaborator, not
part of src/).  It returns the forward distance from `b` to `a`
modulo `max_time + 1`; if the raw forward distance exceeds half the
domain the result is reported as negative, signalling that `a`
appears to precede `b`. -/
def tm_get_diff (tm : TmMath) (a b : Nat) : Int :=
  let m := tm.max_time + 1
  let fwd := (a % m + (m - b % m)) % m
  if m / 2 < fwd then (fwd : Int) - (m : Int) else (fwd : Int)

/-- Modelled from the spec: the Time Arithmetic Provider's
`Offset(a, n) = (a + n) mod (max_time + 1)`. -/
def tm_offset (tm : TmMath) (a n : Nat) : Nat :=
  (a + n) % (tm.max_time + 1)

/-- `struct sched_task`: schedule mask, name storage (inline short
buffer or owned long copy) and running statistics.  The `ctx` and
`next` intrusive-list pointers are represented by the position of
the task in its context's `tasks` list; the callback and its hint
are opaque. -/
structure SchedTask where
  tick_mask : Nat
  short_name : String
  long_name : Option String
  average_time : Nat
  max_time : Nat
  deriving Repr, DecidableEq

instance : Inhabited SchedTask :=
  ⟨{ tick_mask := 0, short_name := "", long_name := none,
     average_time := 0, max_time := 0 }⟩

/-- `struct sched_ctx`.  The intrusive linked list rooted at `root`
is represented as the list `tasks` in root-to-tail order. -/
structure SchedCtx where
  current_tick : Nat
  last_tick_time : Nat
  tick_period : Nat
  tm : TmMath
  tasks : List SchedTask
  deriving Repr, DecidableEq

/-- `rot_left_1` from sched.c: `(a << 1) | (a >> 31)` in `uint32_t`
arithmetic. -/
def rot_left_1 (a : Nat) : Nat :=
  ((a <<< 1) % 2 ^ 32) ||| (a >>> 31)

/-- `update_task_stats` from sched.c: discard a negative execution
time; otherwise fold it into the running average with
`(average_time + t) >> 1` (in `uint32_t` arithmetic) and raise
`max_time` when exceeded. -/
def update_task_stats (task : SchedTask) (exec_time : Int) : SchedTask :=
  if 0 ≤ exec_time then
    let t := exec_time.toNat
    { task with
      average_time := ((task.average_time + t) % 2 ^ 32) >>> 1,
      max_time := if task.max_time < t then t else task.max_time }
  else
    task

/-- `link_task` from sched.c: append the task at the tail of the
context's list (`get_last_linked_task` walks to the end). -/
def link_task (ctx : SchedCtx) (task : SchedTask) : SchedCtx :=
  { ctx with tasks := ctx.tasks ++ [task] }

/-- The shared body of `execute_current_tick` and
`execute_idle_tasks` from sched.c: walk the task list in order and,
for every task whose mask satisfies `p`, take a start read and a
stop read from the time stream and update the task's statistics
with their wrap-safe difference.  Returns the updated task list,
the indices of the executed tasks in execution order (`i` is the
index of the head task), and the next unused read index. -/
def exec_tasks (tm : TmMath) (p : Nat → Bool) :
    List SchedTask → (Nat → Nat) → Nat → Nat →
      List SchedTask × List Nat × Nat
  | [], _, _, k => ([], [], k)
  | t :: ts, reads, i, k =>
    if p t.tick_mask then
      let start := reads k
      let stop := reads (k + 1)
      let t2 := update_task_stats t (tm_get_diff tm stop start)
      let r := exec_tasks tm p ts reads (i + 1) (k + 2)
      (t2 :: r.1, i :: r.2.1, r.2.2)
    else
      let r := exec_tasks tm p ts reads (i + 1) k
      (t :: r.1, r.2.1, r.2.2)

/-- Mask predicate of `execute_current_tick`:
`0 != (ctx->current_tick & task->tick_mask)`. -/
def tick_match (current_tick : Nat) : Nat → Bool :=
  fun mask => (current_tick &&& mask) != 0

/-- Mask predicate of `execute_idle_tasks`: `0 == task->tick_mask`. -/
def idle_match : Nat → Bool :=
  fun mask => mask == 0

/-- The value `ctx->current_tick` holds at the moment the execute
loop of `sched_run` runs: `1` on the first-drive path (the code has
just set it), the stored value otherwise. -/
def tick_at_exec (ctx : SchedCtx) : Nat :=
  if ctx.current_tick = 0 then 1 else ctx.current_tick

/-- Result of one `sched_run` call: the updated context, whether a
tick boundary was serviced (`execute_tick` in the C code), and the
indices of the executed tasks in execution order. -/
structure RunResult where
  ctx : SchedCtx
  serviced : Bool
  executed : List Nat
  deriving Repr, DecidableEq

/-- `sched_run` from sched.c.  `reads` is the stream of values the
caller's time source returns during this call; `reads 0` is `now`. -/
def sched_run (ctx : SchedCtx) (reads : Nat → Nat) : RunResult :=
  let now := reads 0
  let step : SchedCtx × Bool :=
    if ctx.current_tick = 0 then
      ({ ctx with current_tick := 1, last_tick_time := now }, true)
    else
      let delta := tm_get_diff ctx.tm now ctx.last_tick_time
      if delta < 0 then
        ({ ctx with last_tick_time := now }, true)
      else if ctx.tick_period ≤ delta.toNat then
        ({ ctx with
            last_tick_time :=
              tm_offset ctx.tm ctx.last_tick_time ctx.tick_period }, true)
      else
        (ctx, false)
  let c1 := step.1
  if step.2 then
    let r := exec_tasks ctx.tm (tick_match c1.current_tick) c1.tasks reads 0 1
    { ctx := { c1 with
        tasks := r.1,
        current_tick := rot_left_1 c1.current_tick },
      serviced := true,
      executed := r.2.1 }
  else
    let r := exec_tasks ctx.tm idle_match c1.tasks reads 0 1
    { ctx := { c1 with tasks := r.1 },
      serviced := false,
      executed := r.2.1 }

/-- `sched_alloc_context` from sched.c; `alloc_ok` models whether
`malloc` succeeds. -/
def sched_alloc_context (alloc_ok : Bool) (max_time tick_period : Nat) :
    Option SchedCtx :=
  if max_time < 4 || tick_period < 1 || decide (max_time >>> 1 ≤ tick_period) then
    none
  else if alloc_ok then
    some { current_tick := 0, last_tick_time := 0,
           tick_period := tick_period, tm := { max_time := max_time },
           tasks := [] }
  else
    none

/-- `sched_reset` from sched.c (non-NULL context). -/
def sched_reset (ctx : SchedCtx) : SchedCtx :=
  { ctx with current_tick := 0 }

/-- `sched_reset_stats` from sched.c (non-NULL context). -/
def sched_reset_stats (ctx : SchedCtx) : SchedCtx :=
  { ctx with
    tasks := ctx.tasks.map (fun t => { t with average_time := 0, max_time := 0 }) }

/-- `sched_free_task` from sched.c acting on a task identified by
its index in the context's list: `unlink_task` removes it. -/
def sched_free_task (ctx : SchedCtx) (i : Nat) : SchedCtx :=
  { ctx with tasks := ctx.tasks.eraseIdx i }

/-- `sched_alloc_task` from sched.c (non-NULL context).
`task_alloc_ok` models whether `malloc` of the task succeeds and
`strdup_ok` whether duplication of a long name succeeds; `name` is
`none` for a NULL name pointer.  C's `strlen(name)` counts the
bytes of the name, hence `String.utf8ByteSize`.  Returns the task
handle (or `none` on failure) together with the context after the
call: the task is linked only on the all-allocations-succeeded
path, and the failure paths leave the task list untouched. -/
def sched_alloc_task (ctx : SchedCtx) (name : Option String)
    (tick_mask : Nat) (task_alloc_ok strdup_ok : Bool) :
    Option SchedTask × SchedCtx :=
  if task_alloc_ok then
    let base : SchedTask :=
      { tick_mask := tick_mask, short_name := "", long_name := none,
        average_time := 0, max_time := 0 }
    match name with
    | none => (some base, link_task ctx base)
    | some n =>
      if n.utf8ByteSize < 16 then
        let t : SchedTask := { base with short_name := n }
        (some t, link_task ctx t)
      else if strdup_ok then
        let t : SchedTask := { base with long_name := some n }
        (some t, link_task ctx t)
      else
        (none, ctx)
  else
    (none, ctx)

/-- `struct sched_task_info` from sched.h, without the embedded
iterator pointer: the `_iter` field is represented separately where
the iteration surface is modelled. -/
structure SchedTaskInfo where
  name : String
  average_time : Nat
  max_time : Nat
  deriving Repr, DecidableEq

/-- `get_task_info` from sched.c (non-NULL task and info): the name
reported is the owned long copy when present, else the inline short
buffer. -/
def get_task_info (task : SchedTask) : SchedTaskInfo :=
  { name := task.long_name.getD task.short_name,
    average_time := task.average_time,
    max_time := task.max_time }

/-- Outcome of calling a C entry point through a possibly-NULL
pointer: a normal return, or a dereference of a NULL pointer
(undefined behavior, a crash in practice). -/
inductive CCall (α : Type) where
  | ok : α → CCall α
  | nullDeref : CCall α
  deriving Repr, DecidableEq

/-- `sched_run` called through the C interface.  The source performs
no NULL check: its first statement is `ctx->get_time(ctx->hint)`,
so a NULL context is dereferenced. -/
def sched_run_c (ctx : Option SchedCtx) (reads : Nat → Nat) :
    CCall RunResult :=
  match ctx with
  | none => CCall.nullDeref
  | some c => CCall.ok (sched_run c reads)

/-- `sched_reset` called through the C interface: the source checks
`NULL != ctx` and does nothing on a NULL context. -/
def sched_reset_c (ctx : Option SchedCtx) : CCall (Option SchedCtx) :=
  CCall.ok (ctx.map sched_reset)

/-- `sched_alloc_task` called through the C interface: the source
checks `NULL == ctx` and returns a NULL task handle. -/
def sched_alloc_task_c (ctx : Option SchedCtx) (name : Option String)
    (tick_mask : Nat) (task_alloc_ok strdup_ok : Bool) :
    CCall (Option SchedTask × Option SchedCtx) :=
  match ctx with
  | none => CCall.ok (none, none)
  | some c =>
    let r := sched_alloc_task c name tick_mask task_alloc_ok strdup_ok
    CCall.ok (r.1, some r.2)

/-- `sched_free_task` called through the C interface: the source
checks `NULL != task` and does nothing on a NULL task. -/
def sched_free_task_c (ctx : SchedCtx) (task : Option Nat) :
    CCall SchedCtx :=
  match task with
  | none => CCall.ok ctx
  | some i => CCall.ok (sched_free_task ctx i)

/-- `sched_get_first_task_info` called through the C interface: the
source returns false on a NULL context, and `get_task_info` returns
false on a NULL root task or a NULL info pointer (`info_given`
models whether the caller passed a non-NULL info structure).  On
success the filled info is returned together with the embedded
`_iter` pointer, modelled as the remaining suffix of the task
list. -/
def sched_get_first_task_info_c (ctx : Option SchedCtx)
    (info_given : Bool) : CCall (Option (SchedTaskInfo × List SchedTask)) :=
  match ctx with
  | none => CCall.ok none
  | some c =>
    if info_given then
      match c.tasks with
      | [] => CCall.ok none
      | t :: ts => CCall.ok (some (get_task_info t, ts))
    else
      CCall.ok none

/-- `sched_get_next_task_info` called through the C interface: the
source returns false on a NULL info pointer, else follows the
embedded `_iter` pointer (the remaining suffix of the task list). -/
def sched_get_next_task_info_c (info : Option (List SchedTask)) :
    CCall (Option (SchedTaskInfo × List SchedTask)) :=
  match info with
  | none => CCall.ok none
  | some rest =>
    match rest with
    | [] => CCall.ok none
    | t :: ts => CCall.ok (some (get_task_info t, ts))

/-- The contexts obtainable through the public interface: a freshly
allocated context, or the result of any public operation on a
reachable context. -/
inductive Reachable : SchedCtx → Prop where
  | alloc (alloc_ok : Bool) (max_time tick_period : Nat) (c : SchedCtx) :
      sched_alloc_context alloc_ok max_time tick_period = some c →
      Reachable c
  | run (c : SchedCtx) (reads : Nat → Nat) :
      Reachable c → Reachable (sched_run c reads).ctx
  | reset (c : SchedCtx) : Reachable c → Reachable (sched_reset c)
  | reset_stats (c : SchedCtx) : Reachable c → Reachable (sched_reset_stats c)
  | alloc_task (c : SchedCtx) (name : Option String) (tick_mask : Nat)
      (task_alloc_ok strdup_ok : Bool) :
      Reachable c →
      Reachable (sched_alloc_task c name tick_mask task_alloc_ok strdup_ok).2
  | free_task (c : SchedCtx) (i : Nat) :
      Reachable c → Reachable (sched_free_task c i)

/-- A 32-bit value that is zero or has exactly one bit set. -/
def one_hot32 (a : Nat) : Prop :=
  a = 0 ∨ ∃ i, i < 32 ∧ a = 2 ^ i

/-- The indices (in list order, `i` being the index of the head
task) of the tasks whose mask satisfies `p`: the specification-side
description of which tasks one execute loop runs. -/
def due_indices (p : Nat → Bool) : List SchedTask → Nat → List Nat
  | [], _ => []
  | t :: ts, i =>
    if p t.tick_mask then i :: due_indices p ts (i + 1)
    else due_indices p ts (i + 1)

/-- The mask-matching sentence of the specification exactly as
stated, instantiated at one drive call: a task executes iff the
call serviced a tick boundary and the task's mask ANDed with the
tick slot current at that moment is nonzero. -/
def mask_matching_as_stated (c : SchedCtx) (reads : Nat → Nat) : Prop :=
  ∀ i, i < c.tasks.length →
    (i ∈ (sched_run c reads).executed ↔
      (sched_run c reads).serviced = true ∧
      tick_at_exec c &&& (c.tasks.getD i default).tick_mask ≠ 0)

-- Standard task tick masks from sched.h.

def TASK_TICK_IDLE : Nat := 0
def TASK_TICK_1 : Nat := 0b11111111111111111111111111111111
def TASK_TICK_2 : Nat := 0b10101010101010101010101010101010
def TASK_TICK_4 : Nat := 0b01000100010001000100010001000100
def TASK_TICK_8 : Nat := 0b00010000000100000001000000010000
def TASK_TICK_16 : Nat := 0b00000001000000000000000100000000
def TASK_TICK_32 : Nat := 0b00000000000000010000000000000000

/-- The context of the reference test (test/sched_ut.c): allocated
with `max_time = 255` and `tick_period = 1`, then one task per
standard mask registered in the test's order (idle first, then
every tick, every 2nd, 4th, 8th, 16th, 32nd), all with NULL
names. -/
def scenario_ctx : Option SchedCtx := do
  let c0 ← sched_alloc_context true 255 1
  let c1 := (sched_alloc_task c0 none TASK_TICK_IDLE true true).2
  let c2 := (sched_alloc_task c1 none TASK_TICK_1 true true).2
  let c3 := (sched_alloc_task c2 none TASK_TICK_2 true true).2
  let c4 := (sched_alloc_task c3 none TASK_TICK_4 true true).2
  let c5 := (sched_alloc_task c4 none TASK_TICK_8 true true).2
  let c6 := (sched_alloc_task c5 none TASK_TICK_16 true true).2
  pure (sched_alloc_task c6 none TASK_TICK_32 true true).2

/-- Drive the scheduler `n` times, as the reference test does:
before every call the mock time source value is incremented by one
(`t` is its value before the first increment), and the time source
returns that value for every read during the call.  Returns the
final context and the per-call lists of executed task indices. -/
def drive_inc : Nat → Nat → SchedCtx → SchedCtx × List (List Nat)
  | 0, _, c => (c, [])
  | n + 1, t, c =>
    let r := sched_run c (fun _ => t + 1)
    let rest := drive_inc n (t + 1) r.ctx
    (rest.1, r.executed :: rest.2)

-- Concrete states used by witnesses and counterexamples.

/-- The context produced by `sched_alloc_context true 255 1`. -/
def fresh_ctx : SchedCtx :=
  { current_tick := 0, last_tick_time := 0, tick_period := 1,
    tm := { max_time := 255 }, tasks := [] }

/-- A context holding one idle task, in a state where the next
drive call with `now = 5` services no tick boundary (delta `0` is
below the period `10`). -/
def idle_cex_ctx : SchedCtx :=
  { current_tick := 1, last_tick_time := 5, tick_period := 10,
    tm := { max_time := 255 },
    tasks := [{ tick_mask := 0, short_name := "", long_name := none,
                average_time := 0, max_time := 0 }] }

/-- A context holding one always-due task and one idle task, in a
state where the next drive call with `now = 7` services a tick
boundary (delta `5` reaches the period `2`). -/
def tick_wit_ctx : SchedCtx :=
  { current_tick := 4, last_tick_time := 2, tick_period := 2,
    tm := { max_time := 255 },
    tasks := [{ tick_mask := TASK_TICK_1, short_name := "", long_name := none,
                average_time := 0, max_time := 0 },
              { tick_mask := 0, short_name := "", long_name := none,
                average_time := 0, max_time := 0 }] }

/-- A context in a state where the next drive call with `now = 150`
observes a negative wrap-safe delta (forward distance `140` from
`10` to `150` exceeds half of the domain `256`). -/
def resync_wit_ctx : SchedCtx :=
  { current_tick := 8, last_tick_time := 10, tick_period := 2,
    tm := { max_time := 255 },
    tasks := [{ tick_mask := 0, short_name := "", long_name := none,
                average_time := 0, max_time := 0 }] }

/-- A task with some running statistics. -/
def stats_wit_task : SchedTask :=
  { tick_mask := 3, short_name := "t", long_name := none,
    average_time := 6, max_time := 9 }

/-! ## Helper lemmas -/

/-- The execute loops run exactly the tasks whose mask satisfies the
loop's predicate, in list order. -/
theorem exec_tasks_executed (tm : TmMath) (p : Nat → Bool) (ts : List SchedTask)
    (reads : Nat → Nat) (i k : Nat) :
    (exec_tasks tm p ts reads i k).2.1 = due_indices p ts i := by
  induction ts generalizing i k with
  | nil => rfl
  | cons t ts ih =>
    simp only [exec_tasks, due_indices]
    by_cases h : p t.tick_mask <;> simp [h, ih]

/-- Rotating a single set bit moves it up one position, the high bit
wrapping into bit 0. -/
theorem rot_left_1_pow : ∀ i, i < 32 → rot_left_1 (2 ^ i) = 2 ^ ((i + 1) % 32) := by
  decide

theorem rot_left_1_zero : rot_left_1 0 = 0 := by
  decide

/-- Thirty-two rotations return a single set bit to its position. -/
theorem rot_left_1_iter32 : ∀ i, i < 32 → rot_left_1^[32] (2 ^ i) = 2 ^ i := by
  decide

/-- Rotation preserves the zero-or-one-hot shape of the tick word. -/
theorem one_hot32_rot (a : Nat) (h : one_hot32 a) : one_hot32 (rot_left_1 a) := by
  rcases h with h | ⟨i, hi, rfl⟩
  · exact Or.inl (h ▸ rot_left_1_zero)
  · exact Or.inr ⟨(i + 1) % 32, Nat.mod_lt _ (by omega), rot_left_1_pow i hi⟩

/-- One drive call executes the tick-due tasks when it services a
boundary and the idle tasks otherwise, the tick set being matched
against the tick slot current at execution time. -/
theorem run_executed_eq (c : SchedCtx) (reads : Nat → Nat) :
    (sched_run c reads).executed =
      (if (sched_run c reads).serviced then
        due_indices (tick_match (tick_at_exec c)) c.tasks 0
      else
        due_indices idle_match c.tasks 0) := by
  simp only [sched_run, tick_at_exec]
  by_cases h0 : c.current_tick = 0
  · simp [h0, exec_tasks_executed]
  · simp only [h0, if_false, if_neg h0]
    by_cases hneg : tm_get_diff c.tm (reads 0) c.last_tick_time < 0
    · simp [hneg, h0, exec_tasks_executed]
    · by_cases hge : c.tick_period ≤ (tm_get_diff c.tm (reads 0) c.last_tick_time).toNat
      · simp [hneg, hge, h0, exec_tasks_executed]
      · simp [hneg, hge, h0, exec_tasks_executed]

/-- A drive call that services a boundary rotates the tick slot
current at execution time; one that does not leaves it unchanged. -/
theorem run_current_tick_eq (c : SchedCtx) (reads : Nat → Nat) :
    (sched_run c reads).ctx.current_tick =
      (if (sched_run c reads).serviced then rot_left_1 (tick_at_exec c)
       else c.current_tick) := by
  simp only [sched_run, tick_at_exec]
  by_cases h0 : c.current_tick = 0
  · simp [h0]
  · simp only [h0, if_false, if_neg h0]
    by_cases hneg : tm_get_diff c.tm (reads 0) c.last_tick_time < 0
    · simp [hneg, h0]
    · by_cases hge : c.tick_period ≤ (tm_get_diff c.tm (reads 0) c.last_tick_time).toNat
      · simp [hneg, hge, h0]
      · simp [hneg, hge, h0]

/-- Registration never touches the context's tick word. -/
theorem alloc_task_current_tick (c : SchedCtx) (name : Option String)
    (mask : Nat) (ok1 ok2 : Bool) :
    (sched_alloc_task c name mask ok1 ok2).2.current_tick = c.current_tick := by
  cases name <;> simp only [sched_alloc_task, link_task] <;> split_ifs <;> rfl

/-- Membership in the due-index list of an execute loop. -/
theorem mem_due_indices (p : Nat → Bool) :
    ∀ (ts : List SchedTask) (i j : Nat),
      j ∈ due_indices p ts i ↔
        ∃ d, d < ts.length ∧ j = i + d ∧ p ((ts.getD d default).tick_mask) := by
  intro ts
  induction ts with
  | nil => simp [due_indices]
  | cons t ts ih =>
    intro i j
    constructor
    · intro hmem
      by_cases h : p t.tick_mask = true
      · rw [due_indices, if_pos h, List.mem_cons] at hmem
        rcases hmem with rfl | hmem
        · exact ⟨0, by simp, by omega, by simpa using h⟩
        · obtain ⟨d, hd, rfl, hp⟩ := (ih (i + 1) j).mp hmem
          exact ⟨d + 1, by simpa using Nat.succ_lt_succ hd, by omega,
            by simpa using hp⟩
      · rw [due_indices, if_neg h] at hmem
        obtain ⟨d, hd, rfl, hp⟩ := (ih (i + 1) j).mp hmem
        exact ⟨d + 1, by simpa using Nat.succ_lt_succ hd, by omega,
          by simpa using hp⟩
    · rintro ⟨d, hd, rfl, hp⟩
      rw [due_indices]
      cases d with
      | zero =>
        rw [List.getD_cons_zero] at hp
        simp only [Nat.add_zero]
        rw [if_pos hp]
        exact List.mem_cons_self _ _
      | succ d =>
        rw [List.getD_cons_succ] at hp
        have hmem := (ih (i + 1) (i + 1 + d)).mpr
          ⟨d, Nat.lt_of_succ_lt_succ (by simpa using hd), rfl, hp⟩
        have heq : i + (d + 1) = i + 1 + d := by omega
        rw [heq]
        by_cases h : p t.tick_mask = true
        · rw [if_pos h]
          exact List.mem_cons_of_mem _ hmem
        · rw [if_neg h]
          exact hmem

/-! ## Claims -/

/-- C1 (counterexample): the claim's mask-matching half, exactly as
stated ("a task with mask M executes on a Drive call iff that call
serviced a tick boundary and M ANDed with the current tick at that
moment is nonzero"), is false at a concrete input: in
`idle_cex_ctx` the next drive call services no boundary, yet its
idle task (mask 0) executes, while the stated right-hand side is
false for mask 0. -/
theorem mask_matching_literal_false :
    ¬ mask_matching_as_stated idle_cex_ctx (fun _ => 5) := by
  intro h
  have h0 := h 0 (by decide)
  revert h0
  decide

/-- C1 (amended): on every drive call the executed set is exactly
the tick-due set (serviced case, matched against the tick slot
current at that moment, in list order) or exactly the idle set
(non-serviced case, in list order), never both and never neither;
and every task with a NONZERO mask executes iff the call serviced a
boundary and its mask ANDed with the current tick at that moment is
nonzero. -/
theorem drive_executed_sets (c : SchedCtx) (reads : Nat → Nat) :
    ((sched_run c reads).serviced = true ∧
      (sched_run c reads).executed =
        due_indices (tick_match (tick_at_exec c)) c.tasks 0 ∨
     (sched_run c reads).serviced = false ∧
      (sched_run c reads).executed = due_indices idle_match c.tasks 0) ∧
    (∀ i, i < c.tasks.length → (c.tasks.getD i default).tick_mask ≠ 0 →
      (i ∈ (sched_run c reads).executed ↔
        (sched_run c reads).serviced = true ∧
        tick_at_exec c &&& (c.tasks.getD i default).tick_mask ≠ 0)) := by
  have hex := run_executed_eq c reads
  constructor
  · by_cases hs : (sched_run c reads).serviced
    · exact Or.inl ⟨hs, by rw [hex, if_pos hs]⟩
    · exact Or.inr ⟨by simpa using hs, by rw [hex, if_neg hs]⟩
  · intro i hi hm
    rw [hex]
    by_cases hs : (sched_run c reads).serviced
    · rw [if_pos hs, mem_due_indices]
      constructor
      · rintro ⟨d, hd, hij, hp⟩
        have hdi : d = i := by omega
        subst hdi
        refine ⟨hs, ?_⟩
        simpa [tick_match] using hp
      · rintro ⟨_, hm2⟩
        exact ⟨i, hi, by omega, by simpa [tick_match] using hm2⟩
    · rw [if_neg hs, mem_due_indices]
      constructor
      · rintro ⟨d, hd, hij, hp⟩
        have hdi : d = i := by omega
        subst hdi
        exact absurd (by simpa [idle_match] using hp) hm
      · rintro ⟨hs2, _⟩
        exact absurd hs2 hs

/-- C1 (witness): the amended characterization applied to a context
whose next drive call services a boundary, for its first task,
whose mask is nonzero. -/
theorem drive_executed_sets_witness :
    ((sched_run tick_wit_ctx (fun _ => 7)).serviced = true ∧
      (sched_run tick_wit_ctx (fun _ => 7)).executed =
        due_indices (tick_match (tick_at_exec tick_wit_ctx))
          tick_wit_ctx.tasks 0 ∨
     (sched_run tick_wit_ctx (fun _ => 7)).serviced = false ∧
      (sched_run tick_wit_ctx (fun _ => 7)).executed =
        due_indices idle_match tick_wit_ctx.tasks 0) ∧
    (0 ∈ (sched_run tick_wit_ctx (fun _ => 7)).executed ↔
      (sched_run tick_wit_ctx (fun _ => 7)).serviced = true ∧
      tick_at_exec tick_wit_ctx &&&
        (tick_wit_ctx.tasks.getD 0 default).tick_mask ≠ 0) :=
  ⟨(drive_executed_sets tick_wit_ctx (fun _ => 7)).1,
   (drive_executed_sets tick_wit_ctx (fun _ => 7)).2 0 (by decide) (by decide)⟩

/-- C2: every context reachable through the public interface has a
`current_tick` that is zero or one-hot; a serviced boundary rotates
the tick slot current at that moment left by one (the high bit
wrapping into bit 0, hence the mod-32 exponent), and 32 rotations
return a single set bit to its original position. -/
theorem current_tick_one_hot_rotation :
    (∀ c, Reachable c → one_hot32 c.current_tick) ∧
    (∀ c reads, (sched_run c reads).serviced = true →
      (sched_run c reads).ctx.current_tick = rot_left_1 (tick_at_exec c)) ∧
    (∀ i, i < 32 → rot_left_1 (2 ^ i) = 2 ^ ((i + 1) % 32)) ∧
    (∀ i, i < 32 → rot_left_1^[32] (2 ^ i) = 2 ^ i) := by
  refine ⟨?_, ?_, rot_left_1_pow, rot_left_1_iter32⟩
  · intro c h
    induction h with
    | alloc ok mt tp c halloc =>
      left
      unfold sched_alloc_context at halloc
      split_ifs at halloc
      cases halloc
      rfl
    | run c reads _ ih =>
      rw [run_current_tick_eq]
      split_ifs with hs
      · apply one_hot32_rot
        unfold tick_at_exec
        by_cases h0 : c.current_tick = 0
        · rw [if_pos h0]
          exact Or.inr ⟨0, by omega, rfl⟩
        · rw [if_neg h0]
          exact ih
      · exact ih
    | reset c _ ih => exact Or.inl rfl
    | reset_stats c _ ih => exact ih
    | alloc_task c name mask ok1 ok2 _ ih =>
      rw [alloc_task_current_tick]
      exact ih
    | free_task c i _ ih => exact ih
  · intro c reads hs
    rw [run_current_tick_eq, if_pos hs]

/-- C2 (witness): the invariant at a freshly allocated context, the
rotation equation on its first (serviced) drive call, and the
single-bit rotation facts at bit 5. -/
theorem current_tick_one_hot_rotation_witness :
    one_hot32 fresh_ctx.current_tick ∧
    (sched_run fresh_ctx (fun _ => 3)).ctx.current_tick =
      rot_left_1 (tick_at_exec fresh_ctx) ∧
    rot_left_1 (2 ^ 5) = 2 ^ ((5 + 1) % 32) ∧
    rot_left_1^[32] (2 ^ 5) = 2 ^ 5 :=
  ⟨current_tick_one_hot_rotation.1 fresh_ctx
      (Reachable.alloc true 255 1 fresh_ctx rfl),
   current_tick_one_hot_rotation.2.1 fresh_ctx (fun _ => 3) rfl,
   current_tick_one_hot_rotation.2.2.1 5 (by decide),
   current_tick_one_hot_rotation.2.2.2 5 (by decide)⟩

/-- C3: with a nonzero tick word and a nonnegative wrap-safe delta
from `last_tick_time` to `now`, a delta of at least `tick_period`
services a boundary and advances `last_tick_time` by exactly one
period in the wrap domain (a one-period catch-up, not a snap to
`now`), while a smaller delta services nothing and leaves
`last_tick_time` unchanged. -/
theorem tick_boundary_catchup (c : SchedCtx) (reads : Nat → Nat)
    (h0 : c.current_tick ≠ 0)
    (hnn : 0 ≤ tm_get_diff c.tm (reads 0) c.last_tick_time) :
    (c.tick_period ≤ (tm_get_diff c.tm (reads 0) c.last_tick_time).toNat →
      (sched_run c reads).serviced = true ∧
      (sched_run c reads).ctx.last_tick_time =
        tm_offset c.tm c.last_tick_time c.tick_period) ∧
    ((tm_get_diff c.tm (reads 0) c.last_tick_time).toNat < c.tick_period →
      (sched_run c reads).serviced = false ∧
      (sched_run c reads).ctx.last_tick_time = c.last_tick_time) := by
  have hnl : ¬ tm_get_diff c.tm (reads 0) c.last_tick_time < 0 := Int.not_lt.mpr hnn
  constructor
  · intro hge
    simp [sched_run, h0, hnl, hge]
  · intro hlt
    simp [sched_run, h0, hnl, Nat.not_le.mpr hlt]

/-- C3 (witness): a call whose delta (5) reaches the period (2)
advances `last_tick_time` by one period, and a call whose delta (0)
is below the period (10) changes nothing. -/
theorem tick_boundary_catchup_witness :
    ((sched_run tick_wit_ctx (fun _ => 7)).serviced = true ∧
      (sched_run tick_wit_ctx (fun _ => 7)).ctx.last_tick_time =
        tm_offset tick_wit_ctx.tm tick_wit_ctx.last_tick_time
          tick_wit_ctx.tick_period) ∧
    ((sched_run idle_cex_ctx (fun _ => 5)).serviced = false ∧
      (sched_run idle_cex_ctx (fun _ => 5)).ctx.last_tick_time =
        idle_cex_ctx.last_tick_time) :=
  ⟨(tick_boundary_catchup tick_wit_ctx (fun _ => 7) (by decide) (by decide)).1
      (by decide),
   (tick_boundary_catchup idle_cex_ctx (fun _ => 5) (by decide) (by decide)).2
      (by decide)⟩

/-- C4: with a nonzero tick word and a negative wrap-safe delta, the
drive call resynchronizes `last_tick_time` to `now` and services a
boundary; the tick word is not reset — the executed set is matched
against the unchanged `current_tick`, which is then rotated exactly
as on a normal tick. -/
theorem negative_delta_resync (c : SchedCtx) (reads : Nat → Nat)
    (h0 : c.current_tick ≠ 0)
    (hneg : tm_get_diff c.tm (reads 0) c.last_tick_time < 0) :
    (sched_run c reads).serviced = true ∧
    (sched_run c reads).ctx.last_tick_time = reads 0 ∧
    tick_at_exec c = c.current_tick ∧
    (sched_run c reads).executed =
      due_indices (tick_match c.current_tick) c.tasks 0 ∧
    (sched_run c reads).ctx.current_tick = rot_left_1 c.current_tick := by
  refine ⟨?_, ?_, ?_, ?_, ?_⟩ <;>
    simp [sched_run, tick_at_exec, h0, hneg, exec_tasks_executed]

/-- C4 (witness): the resynchronization behavior at a context whose
next read (150) lies a negative wrap-safe delta away from
`last_tick_time` (10) in the 256-wide domain. -/
theorem negative_delta_resync_witness :
    (sched_run resync_wit_ctx (fun _ => 150)).serviced = true ∧
    (sched_run resync_wit_ctx (fun _ => 150)).ctx.last_tick_time = 150 ∧
    tick_at_exec resync_wit_ctx = resync_wit_ctx.current_tick ∧
    (sched_run resync_wit_ctx (fun _ => 150)).executed =
      due_indices (tick_match resync_wit_ctx.current_tick)
        resync_wit_ctx.tasks 0 ∧
    (sched_run resync_wit_ctx (fun _ => 150)).ctx.current_tick =
      rot_left_1 resync_wit_ctx.current_tick :=
  negative_delta_resync resync_wit_ctx (fun _ => 150) (by decide) (by decide)

/-- C5: the reference-test scenario. In the context built with
`max_time = 255`, `tick_period = 1` and the seven standard masks
(idle registered first, at index 0, then every tick .. every 32nd
at indices 1..6), 32 drive calls with the time source incremented
by one before each call execute the tasks 32, 16, 8, 4, 2, 1 and 0
times respectively, and one further call with the time source
unchanged executes exactly the idle task. -/
theorem reference_test_scenario :
    scenario_ctx.map (fun c =>
      let r := drive_inc 32 0 c
      ((r.2.flatten.count 1, r.2.flatten.count 2, r.2.flatten.count 3,
        r.2.flatten.count 4, r.2.flatten.count 5, r.2.flatten.count 6,
        r.2.flatten.count 0),
       (sched_run r.1 (fun _ => 32)).executed))
    = some ((32, 16, 8, 4, 2, 1, 0), [0]) := by
  rfl

/-- C6: context creation yields no context exactly when
`max_time < 4`, `tick_period < 1`, `tick_period >= max_time / 2` or
the allocation fails; a created context starts with a zero tick
word, `last_tick_time = 0`, the supplied period, the wrap bound
handed to the time arithmetic provider, and no tasks. -/
theorem alloc_context_success_and_failure (alloc_ok : Bool)
    (max_time tick_period : Nat) :
    (sched_alloc_context alloc_ok max_time tick_period = none ↔
      max_time < 4 ∨ tick_period < 1 ∨ max_time / 2 ≤ tick_period ∨
        alloc_ok = false) ∧
    ∀ c, sched_alloc_context alloc_ok max_time tick_period = some c →
      c.current_tick = 0 ∧ c.last_tick_time = 0 ∧
      c.tick_period = tick_period ∧ c.tm.max_time = max_time ∧ c.tasks = [] := by
  have hdiv : max_time >>> 1 = max_time / 2 := by
    rw [Nat.shiftRight_eq_div_pow, pow_one]
  constructor
  · unfold sched_alloc_context
    split_ifs with h1 h2
    · simp only [Bool.or_eq_true, decide_eq_true_eq] at h1
      rw [hdiv] at h1
      exact iff_of_true rfl (by tauto)
    · apply iff_of_false (by simp)
      simp only [Bool.or_eq_true, decide_eq_true_eq, not_or] at h1
      rw [hdiv] at h1
      rintro (h | h | h | h)
      · exact h1.1.1 h
      · exact h1.1.2 h
      · exact h1.2 h
      · rw [h] at h2
        cases h2
    · apply iff_of_true rfl
      refine Or.inr (Or.inr (Or.inr ?_))
      simpa using h2
  · intro c hc
    unfold sched_alloc_context at hc
    split_ifs at hc
    cases hc
    exact ⟨rfl, rfl, rfl, rfl, rfl⟩

/-- C6 (witness): the initialization facts at a successful creation
(255, 1), and two concrete failures: `max_time = 3 < 4`, and an
allocation failure. -/
theorem alloc_context_success_and_failure_witness :
    (fresh_ctx.current_tick = 0 ∧ fresh_ctx.last_tick_time = 0 ∧
      fresh_ctx.tick_period = 1 ∧ fresh_ctx.tm.max_time = 255 ∧
      fresh_ctx.tasks = []) ∧
    sched_alloc_context true 3 1 = none ∧
    sched_alloc_context false 255 1 = none :=
  ⟨(alloc_context_success_and_failure true 255 1).2 fresh_ctx rfl,
   (alloc_context_success_and_failure true 3 1).1.mpr (Or.inl (by decide)),
   (alloc_context_success_and_failure false 255 1).1.mpr
      (Or.inr (Or.inr (Or.inr rfl)))⟩

/-- C7: a nonnegative observed duration `d` sets `average_time` to
`(average_time + d) >> 1` in unsigned 32-bit arithmetic and raises
`max_time` to `d` exactly when `d` exceeds it (leaving it unchanged
otherwise — it never decreases); a negative duration leaves the
task, statistics included, unchanged. -/
theorem update_task_stats_behavior (task : SchedTask) (d : Int) :
    (0 ≤ d →
      update_task_stats task d =
        { task with
          average_time := ((task.average_time + d.toNat) % 2 ^ 32) >>> 1,
          max_time :=
            if task.max_time < d.toNat then d.toNat else task.max_time }) ∧
    (d < 0 → update_task_stats task d = task) ∧
    task.max_time ≤ (update_task_stats task d).max_time := by
  refine ⟨fun h => ?_, fun h => ?_, ?_⟩
  · rw [update_task_stats, if_pos h]
  · rw [update_task_stats, if_neg (Int.not_le.mpr h)]
  · unfold update_task_stats
    by_cases h : 0 ≤ d
    · rw [if_pos h]
      dsimp only
      split_ifs with h2
      · exact Nat.le_of_lt h2
      · exact Nat.le_refl _
    · rw [if_neg h]

/-- C7 (witness): updating a task averaging 6 with maximum 9 by an
observed duration of 20 and by a negative duration. -/
theorem update_task_stats_behavior_witness :
    (update_task_stats stats_wit_task 20 =
      { stats_wit_task with
        average_time := ((stats_wit_task.average_time + 20) % 2 ^ 32) >>> 1,
        max_time := 20 } ∧
      update_task_stats stats_wit_task (-3) = stats_wit_task) ∧
    stats_wit_task.max_time ≤ (update_task_stats stats_wit_task 20).max_time := by
  refine ⟨⟨?_, (update_task_stats_behavior stats_wit_task (-3)).2.1 (by decide)⟩,
    (update_task_stats_behavior stats_wit_task 20).2.2⟩
  have h := (update_task_stats_behavior stats_wit_task 20).1 (by decide)
  rw [h]
  decide

/-- C8: a name whose byte length (terminator included) fits in the
16-byte inline buffer is stored there with no owned copy, a longer
name is stored as an owned duplicate, and a NULL name yields an
empty name; the info accessor reports exactly the registered name
— the long copy when present, else the inline buffer, hence the
empty string when no name was given. -/
theorem task_name_storage_roundtrip (c : SchedCtx) (n : String) (mask : Nat) :
    ((sched_alloc_task c (some n) mask true true).1 =
      some (if n.utf8ByteSize < 16 then
        { tick_mask := mask, short_name := n, long_name := none,
          average_time := 0, max_time := 0 }
      else
        { tick_mask := mask, short_name := "", long_name := some n,
          average_time := 0, max_time := 0 })) ∧
    ((sched_alloc_task c none mask true true).1 =
      some { tick_mask := mask, short_name := "", long_name := none,
             average_time := 0, max_time := 0 }) ∧
    ((sched_alloc_task c (some n) mask true true).1.map
        (fun t => (get_task_info t).name) = some n) ∧
    ((sched_alloc_task c none mask true true).1.map
        (fun t => (get_task_info t).name) = some "") := by
  refine ⟨?_, rfl, ?_, rfl⟩
  · by_cases h : n.utf8ByteSize < 16 <;> simp [sched_alloc_task, h]
  · by_cases h : n.utf8ByteSize < 16 <;>
      simp [sched_alloc_task, get_task_info, h]

/-- C9 (counterexample): the claim states that Drive on a NULL
context does not crash, but `sched_run` performs no NULL check and
immediately dereferences the context. -/
theorem drive_null_context_crashes :
    sched_run_c none (fun _ => 0) = CCall.nullDeref := rfl

/-- C9 (amended): null arguments to the operations that check for
them are reported by sentinel no-value/false returns and are not
fatal — Register with a NULL context returns failure, Unregister of
NULL is a no-op, the info queries return false, Reset on NULL is a
no-op; Drive alone performs no NULL check and dereferences a NULL
context. -/
theorem null_argument_handling (reads : Nat → Nat) (name : Option String)
    (mask : Nat) (ok1 ok2 : Bool) (c : SchedCtx) (b : Bool) :
    sched_alloc_task_c none name mask ok1 ok2 = CCall.ok (none, none) ∧
    sched_free_task_c c none = CCall.ok c ∧
    sched_get_first_task_info_c none b = CCall.ok none ∧
    sched_get_next_task_info_c none = CCall.ok none ∧
    sched_reset_c none = CCall.ok none ∧
    sched_run_c none reads = CCall.nullDeref :=
  ⟨rfl, rfl, rfl, rfl, rfl, rfl⟩

/-- C10: with a name of 16 bytes or more whose duplication fails,
registration returns failure and the task list is exactly as
before the call; in general a task handle is returned only when it
has been appended to the end of the list, after all allocations
succeeded. -/
theorem alloc_task_failure_atomicity (c : SchedCtx) (n : String) (mask : Nat)
    (hlong : 16 ≤ n.utf8ByteSize) :
    sched_alloc_task c (some n) mask true false = (none, c) ∧
    (∀ (name : Option String) (ok1 ok2 : Bool) (t : SchedTask),
      (sched_alloc_task c name mask ok1 ok2).1 = some t →
      (sched_alloc_task c name mask ok1 ok2).2.tasks = c.tasks ++ [t]) := by
  constructor
  · simp [sched_alloc_task, Nat.not_lt.mpr hlong]
  · intro name ok1 ok2 t ht
    cases name with
    | none =>
      simp only [sched_alloc_task, link_task] at ht ⊢
      split_ifs at ht ⊢
      cases ht
      rfl
    | some m =>
      simp only [sched_alloc_task, link_task] at ht ⊢
      split_ifs at ht ⊢ <;> (cases ht; rfl)

/-- C10 (witness): a 16-byte name registered into the fresh context
with a failing duplication leaves the context untouched. -/
theorem alloc_task_failure_atomicity_witness :
    16 ≤ ("abcdefghijklmnop" : String).utf8ByteSize ∧
    sched_alloc_task fresh_ctx (some "abcdefghijklmnop") 3 true false =
      (none, fresh_ctx) :=
  ⟨by decide,
   (alloc_task_failure_atomicity fresh_ctx "abcdefghijklmnop" 3 (by decide)).1⟩

end Sched
